import Mathlib

/-!
Verification of the Omnivore-JSON-to-Raindrop-HTML converter
(`omni_gui02.py`, function `convert_omnivore_folder_to_pocket_html`,
lines 10-103).

The converter receives a sequence of named input buffers (the front end
reads the files of a folder; the converter is agnostic to their origin),
each expected to hold a JSON array of article records, and produces one
HTML bookmark document plus a statistics record.

The embedding below models:
  * JSON values (`Json`);
  * the outcome of `open(...).read()` + `json.load` on one buffer
    (`BufferContent`): malformed UTF-8 raises `UnicodeDecodeError`
    (which is NOT a `json.JSONDecodeError`, so it reaches the generic
    `except Exception` handler of line 94), invalid JSON syntax raises
    `json.JSONDecodeError` (caught at line 92), and otherwise a parsed
    JSON value is obtained;
  * Python exceptions as values (`PyExn`), distinguishing
    `json.JSONDecodeError` from every other exception, which the code
    stringifies with `str(e)`;
  * `html.escape` (quote=True), `','.join`, dict membership / `get`,
    Python truthiness, f-string rendering `str(x)`;
  * `datetime.fromisoformat` composed with `.replace('Z', '+00:00')`
    and `strftime('%Y-%m-%d %H:%M:%S')`;
  * the per-article, per-buffer and whole-run control flow with its
    statistics and document accumulation.
-/

/-- A JSON value as produced by `json.load`.  Numbers are modelled as
integers (fractional literals play no role in any property below).  An
`obj` is the parsed Python dict; `json.load` yields dicts whose keys are
distinct (later duplicates overwrite earlier ones during parsing). -/
inductive Json where
  | null : Json
  | bool (b : Bool) : Json
  | num (n : Int) : Json
  | str (s : String) : Json
  | arr (xs : List Json) : Json
  | obj (kvs : List (String × Json)) : Json

/-- A Python exception, as discriminated by the two `except` clauses of
lines 92-95: `json.JSONDecodeError` is caught separately; every other
exception `e` is stringified as `str(e)`. -/
inductive PyExn where
  | jsonDecodeError : PyExn
  | otherExn (msg : String) : PyExn
deriving DecidableEq

/-- Python type name of a JSON value, as it appears in error messages. -/
def pyTypeName : Json → String
  | .null => "NoneType"
  | .bool _ => "bool"
  | .num _ => "int"
  | .str _ => "str"
  | .arr _ => "list"
  | .obj _ => "dict"

/-- `isPrefixL pat l` decides whether `pat` is a prefix of `l`. -/
def isPrefixL : List Char → List Char → Bool
  | [], _ => true
  | _ :: _, [] => false
  | a :: as, b :: bs => a == b && isPrefixL as bs

/-- `hasSubstrL pat l` decides whether `pat` occurs contiguously in `l`
(Python `pat in s` on strings). -/
def hasSubstrL (pat : List Char) : List Char → Bool
  | [] => pat.isEmpty
  | b :: bs => isPrefixL pat (b :: bs) || hasSubstrL pat bs

/-- Python substring test `pat in s`. -/
def strHasSubstr (pat s : String) : Bool := hasSubstrL pat.data s.data

/-- Number of (possibly overlapping) occurrences of `pat` in `l`; used to
count `<dt>` fragments in a concrete output document. -/
def countSubstrL (pat : List Char) : List Char → Nat
  | [] => 0
  | b :: bs => (if isPrefixL pat (b :: bs) then 1 else 0) + countSubstrL pat bs

/-- Number of occurrences of `pat` in `s`. -/
def countSubstr (pat s : String) : Nat := countSubstrL pat.data s.data

/-- Concatenation of a list of strings in order (string `+=` in a loop). -/
def strConcat : List String → String
  | [] => ""
  | s :: rest => s ++ strConcat rest

/-- `html.escape(c, quote=True)` on one character.  The library function
performs sequential `str.replace` calls with `&` first; since the
entities introduced for the later characters are never rescanned, this
is the same as mapping each character independently. -/
def escapeChar (c : Char) : String :=
  if c = '&' then "&amp;"
  else if c = '<' then "&lt;"
  else if c = '>' then "&gt;"
  else if c = '"' then "&quot;"
  else if c = Char.ofNat 39 then "&#x27;"
  else String.singleton c

/-- `html.escape(s, quote=True)` on a string. -/
def htmlEscape (s : String) : String := String.join (s.data.map escapeChar)

/-- Membership `key in d` for a parsed JSON dict. -/
def dictHasKey (kvs : List (String × Json)) (key : String) : Bool :=
  (kvs.lookup key).isSome

/-- `d.get(key, default)` / `d[key]` for a parsed JSON dict. -/
def dictGetD (kvs : List (String × Json)) (key : String) (dflt : Json) : Json :=
  match kvs.lookup key with
  | some v => v
  | none => dflt

/-- Python truthiness of a JSON value (`if 'labels' in article and
article['labels']:`, line 68). -/
def pyTruthy : Json → Bool
  | .null => false
  | .bool b => b
  | .num n => n != 0
  | .str s => !(s.isEmpty)
  | .arr xs => !(xs.isEmpty)
  | .obj kvs => !(kvs.isEmpty)

/-- `html.escape(v)` on an arbitrary value: the library immediately calls
`v.replace`, so every non-`str` argument raises `AttributeError`. -/
def pyEscape : Json → Except PyExn String
  | .str s => .ok (htmlEscape s)
  | v => .error (.otherExn ("\x27" ++ pyTypeName v ++ "\x27 object has no attribute \x27replace\x27"))

/-- Checks that every list element is a `str` (as `','.join` does),
reporting the index of the first offender like Python. -/
def checkStrList (i : Nat) : List Json → Except PyExn (List String)
  | [] => .ok []
  | .str s :: rest =>
      match checkStrList (i + 1) rest with
      | .ok ss => .ok (s :: ss)
      | .error e => .error e
  | v :: _ =>
      .error (.otherExn ("sequence item " ++ toString i ++ ": expected str instance, "
        ++ pyTypeName v ++ " found"))

/-- `','.join(v)` on an arbitrary value.  Strings are iterables of their
characters; dicts are iterables of their (string) keys; non-iterables
raise `TypeError`. -/
def pyJoinComma : Json → Except PyExn String
  | .arr xs =>
      match checkStrList 0 xs with
      | .ok ss => .ok (String.intercalate "," ss)
      | .error e => .error e
  | .str s => .ok (String.intercalate "," (s.data.map String.singleton))
  | .obj kvs => .ok (String.intercalate "," (kvs.map (·.1)))
  | _ => .error (.otherExn "can only join an iterable")

/-- Escapes backslashes and apostrophes for `repr` of a Python string
(control-character escaping, which no property below touches, is
elided). -/
def reprEscapeChar (c : Char) : String :=
  if c = '\\' then "\\\\"
  else if c = Char.ofNat 39 then "\\" ++ String.singleton (Char.ofNat 39)
  else String.singleton c

/-- `repr` of a Python string: single quotes, unless the string contains
an apostrophe and no double quote, in which case double quotes. -/
def pyReprStr (s : String) : String :=
  if s.data.contains (Char.ofNat 39) && !(s.data.contains '"') then
    "\"" ++ s ++ "\""
  else
    "\x27" ++ String.join (s.data.map reprEscapeChar) ++ "\x27"

mutual
/-- `repr` of a parsed JSON value (the rendering Python uses for values
nested inside containers). -/
def pyRepr : Json → String
  | .null => "None"
  | .bool true => "True"
  | .bool false => "False"
  | .num n => toString n
  | .str s => pyReprStr s
  | .arr xs => "[" ++ pyReprItems xs ++ "]"
  | .obj kvs => "\x7b" ++ pyReprFields kvs ++ "\x7d"

/-- Comma-separated `repr`s of list items. -/
def pyReprItems : List Json → String
  | [] => ""
  | [x] => pyRepr x
  | x :: y :: rest => pyRepr x ++ ", " ++ pyReprItems (y :: rest)

/-- Comma-separated `repr`s of dict entries. -/
def pyReprFields : List (String × Json) → String
  | [] => ""
  | [(k, v)] => pyReprStr k ++ ": " ++ pyRepr v
  | (k, v) :: e :: rest => pyReprStr k ++ ": " ++ pyRepr v ++ ", " ++ pyReprFields (e :: rest)
end

/-- `str(v)` — the conversion an f-string interpolation applies
(line 84 embeds `article.get('description', '')` this way). -/
def pyStr : Json → String
  | .null => "None"
  | .bool true => "True"
  | .bool false => "False"
  | .num n => toString n
  | .str s => s
  | .arr xs => "[" ++ pyReprItems xs ++ "]"
  | .obj kvs => "\x7b" ++ pyReprFields kvs ++ "\x7d"

/-- Value of a decimal digit character. -/
def digitVal (c : Char) : Option Nat :=
  if c.isDigit then some (c.toNat - 48) else none

/-- Two decimal digits. -/
def twoDigits (a b : Char) : Option Nat := do
  let x ← digitVal a
  let y ← digitVal b
  pure (x * 10 + y)

/-- Length of a month, with Gregorian leap years (as `datetime` checks). -/
def daysInMonth (y m : Nat) : Nat :=
  if m = 2 then (if (y % 4 = 0 && !(y % 100 = 0)) || y % 400 = 0 then 29 else 28)
  else if m = 4 || m = 6 || m = 9 || m = 11 then 30 else 31

/-- The naive components `datetime.fromisoformat` stores (`strftime`
prints exactly these; a parsed offset is kept as `tzinfo` and never
alters them). -/
structure DT where
  year : Nat
  month : Nat
  day : Nat
  hour : Nat
  minute : Nat
  second : Nat
deriving DecidableEq

/-- The clock part of an isoformat time string: `HH`, `HH:MM`,
`HH:MM:SS`, optionally followed by a fractional part of exactly 3 or 6
digits, as `datetime.fromisoformat` accepts. -/
def parseClock (cs : List Char) : Option (Nat × Nat × Nat) :=
  match cs with
  | [h1, h2] => do
      let h ← twoDigits h1 h2
      if h ≤ 23 then some (h, 0, 0) else none
  | [h1, h2, ':', m1, m2] => do
      let h ← twoDigits h1 h2
      let m ← twoDigits m1 m2
      if h ≤ 23 && m ≤ 59 then some (h, m, 0) else none
  | [h1, h2, ':', m1, m2, ':', s1, s2] => do
      let h ← twoDigits h1 h2
      let m ← twoDigits m1 m2
      let s ← twoDigits s1 s2
      if h ≤ 23 && m ≤ 59 && s ≤ 59 then some (h, m, s) else none
  | [h1, h2, ':', m1, m2, ':', s1, s2, '.', f1, f2, f3] => do
      let h ← twoDigits h1 h2
      let m ← twoDigits m1 m2
      let s ← twoDigits s1 s2
      let _ ← digitVal f1
      let _ ← digitVal f2
      let _ ← digitVal f3
      if h ≤ 23 && m ≤ 59 && s ≤ 59 then some (h, m, s) else none
  | [h1, h2, ':', m1, m2, ':', s1, s2, '.', f1, f2, f3, f4, f5, f6] => do
      let h ← twoDigits h1 h2
      let m ← twoDigits m1 m2
      let s ← twoDigits s1 s2
      let _ ← digitVal f1
      let _ ← digitVal f2
      let _ ← digitVal f3
      let _ ← digitVal f4
      let _ ← digitVal f5
      let _ ← digitVal f6
      if h ≤ 23 && m ≤ 59 && s ≤ 59 then some (h, m, s) else none
  | _ => none

/-- A UTC-offset string after its sign: `HH:MM`, `HH:MM:SS` or
`HH:MM:SS.ffffff` (the three lengths `fromisoformat` admits for a
timezone part); the offset's value never reaches the output, only its
well-formedness matters. -/
def parseOffset (cs : List Char) : Option Unit :=
  match cs with
  | [h1, h2, ':', m1, m2] => do
      let h ← twoDigits h1 h2
      let m ← twoDigits m1 m2
      if h ≤ 23 && m ≤ 59 then some () else none
  | [h1, h2, ':', m1, m2, ':', s1, s2] => do
      let h ← twoDigits h1 h2
      let m ← twoDigits m1 m2
      let s ← twoDigits s1 s2
      if h ≤ 23 && m ≤ 59 && s ≤ 59 then some () else none
  | [h1, h2, ':', m1, m2, ':', s1, s2, '.', f1, f2, f3, f4, f5, f6] => do
      let h ← twoDigits h1 h2
      let m ← twoDigits m1 m2
      let s ← twoDigits s1 s2
      let _ ← digitVal f1
      let _ ← digitVal f2
      let _ ← digitVal f3
      let _ ← digitVal f4
      let _ ← digitVal f5
      let _ ← digitVal f6
      if h ≤ 23 && m ≤ 59 && s ≤ 59 then some () else none
  | _ => none

/-- Splits a time string at the first `+` or `-` (how `fromisoformat`
separates the clock from an optional UTC offset). -/
def splitAtSign : List Char → List Char × Option (List Char)
  | [] => ([], none)
  | c :: rest =>
      if c = '+' || c = '-' then ([], some rest)
      else
        let (l, r) := splitAtSign rest
        (c :: l, r)

/-- `datetime.fromisoformat`: a 10-character `YYYY-MM-DD` date (year at
least 1, valid month and day), optionally followed by one separator
character (any character, per the library) and a time with optional
fraction and optional signed UTC offset. -/
def parseIsoChars : List Char → Option DT
  | y1 :: y2 :: y3 :: y4 :: '-' :: mo1 :: mo2 :: '-' :: d1 :: d2 :: rest => do
      let a ← digitVal y1
      let b ← digitVal y2
      let c ← digitVal y3
      let d ← digitVal y4
      let y := ((a * 10 + b) * 10 + c) * 10 + d
      let mo ← twoDigits mo1 mo2
      let da ← twoDigits d1 d2
      if 1 ≤ y && 1 ≤ mo && mo ≤ 12 && 1 ≤ da && da ≤ daysInMonth y mo then
        match rest with
        | [] => some ⟨y, mo, da, 0, 0, 0⟩
        | _sep :: timeCs => do
            let (clockCs, signPart) := splitAtSign timeCs
            let (h, mi, s) ← parseClock clockCs
            match signPart with
            | none => pure ()
            | some offCs => parseOffset offCs
            some ⟨y, mo, da, h, mi, s⟩
      else none
  | _ => none

/-- `datetime.fromisoformat` on a string. -/
def parseIsoStr (s : String) : Option DT := parseIsoChars s.data

/-- Zero-pads to two digits. -/
def pad2 (n : Nat) : String :=
  if n < 10 then "0" ++ toString n else toString n

/-- Zero-pads to four digits. -/
def pad4 (n : Nat) : String :=
  if n < 10 then "000" ++ toString n
  else if n < 100 then "00" ++ toString n
  else if n < 1000 then "0" ++ toString n
  else toString n

/-- `strftime('%Y-%m-%d %H:%M:%S')`. -/
def formatDT (dt : DT) : String :=
  pad4 dt.year ++ "-" ++ pad2 dt.month ++ "-" ++ pad2 dt.day ++ " "
    ++ pad2 dt.hour ++ ":" ++ pad2 dt.minute ++ ":" ++ pad2 dt.second

/-- `s.replace('Z', '+00:00')` (line 74): replaces EVERY occurrence of
`Z`, not only a trailing one. -/
def pyReplaceZ (s : String) : String :=
  String.join (s.data.map (fun c => if c = 'Z' then "+00:00" else String.singleton c))

/-- Lines 72-79: the `time_added` value for one record. `now` is the
`strftime`-formatted wall-clock time at the moment of processing.  A
non-`str` `savedAt` makes `.replace` raise `AttributeError` and an
unparsable string makes `fromisoformat` raise `ValueError`; both are
swallowed by the bare `except:` of line 78, which substitutes `now`. -/
def articleTimeStr (now : String) (kvs : List (String × Json)) : String :=
  match kvs.lookup "savedAt" with
  | some (.str s) =>
      match parseIsoStr (pyReplaceZ s) with
      | some dt => formatDT dt
      | none => now
  | some _ => now
  | none => now

/-- The bookmark fragment appended for one article (lines 82-84 of the
source f-string, including its leading newline and indentation). -/
def mkFragment (url timeStr tags title desc : String) : String :=
  "\n    <dt><a href=\"" ++ url ++ "\" time_added=\"" ++ timeStr ++ "\" tags=\""
    ++ tags ++ "\">" ++ title ++ "</a></dt>\n    <dd>" ++ desc ++ "</dd>"

/-- Python equality of the string `"url"` with a JSON value (used by
`'url' in article` when `article` is a list). -/
def isUrlStr : Json → Bool
  | .str s => s == "url"
  | _ => false

/-- Lines 66-69: the tag string of one record — empty unless `labels`
is present and truthy, in which case the labels are joined with commas
and the joined string is escaped as a whole. -/
def articleTags (kvs : List (String × Json)) : Except PyExn String :=
  if dictHasKey kvs "labels" && pyTruthy (dictGetD kvs "labels" .null) then
    match pyJoinComma (dictGetD kvs "labels" .null) with
    | .ok joined => .ok (htmlEscape joined)
    | .error e => .error e
  else
    .ok ""

/-- One iteration of the loop of lines 57-86 on one array element:
`.ok none` means the element was silently skipped (`continue` at
line 60), `.ok (some frag)` that a fragment was appended, `.error e`
that an exception escaped toward the handlers of lines 92-95.
Non-dict elements follow Python: `'url' not in article` works on
strings (substring test) and lists (membership test) but raises
`TypeError` on numbers, booleans and `None`; when the membership test
succeeds on a non-dict, the subsequent `article.get` raises
`AttributeError`. -/
def processArticle (now : String) (article : Json) : Except PyExn (Option String) :=
  match article with
  | .obj kvs =>
      if dictHasKey kvs "url" then
        match pyEscape (dictGetD kvs "title" (dictGetD kvs "url" .null)) with
        | .error e => .error e
        | .ok title =>
            match pyEscape (dictGetD kvs "url" .null) with
            | .error e => .error e
            | .ok url =>
                match articleTags kvs with
                | .error e => .error e
                | .ok tags =>
                    .ok (some (mkFragment url (articleTimeStr now kvs) tags title
                      (pyStr (dictGetD kvs "description" (.str "")))))
      else
        .ok none
  | .str s =>
      if strHasSubstr "url" s then
        .error (.otherExn "\x27str\x27 object has no attribute \x27get\x27")
      else
        .ok none
  | .arr xs =>
      if xs.any isUrlStr then
        .error (.otherExn "\x27list\x27 object has no attribute \x27get\x27")
      else
        .ok none
  | .num _ => .error (.otherExn "argument of type \x27int\x27 is not iterable")
  | .bool _ => .error (.otherExn "argument of type \x27bool\x27 is not iterable")
  | .null => .error (.otherExn "argument of type \x27NoneType\x27 is not iterable")

/-- The loop of lines 57-86 over a whole array: returns the fragments
appended to `html_content` (in order) and either the final
`file_article_count` or the exception that interrupted the loop.
Fragments appended before an exception are returned with it, because
`html_content` has already been extended when the exception occurs. -/
def processArray (now : String) : List Json → List String × Except PyExn Nat
  | [] => ([], .ok 0)
  | a :: rest =>
      match processArticle now a with
      | .error e => ([], .error e)
      | .ok none => processArray now rest
      | .ok (some frag) =>
          let pr := processArray now rest
          (frag :: pr.1,
           match pr.2 with
           | .ok n => .ok (n + 1)
           | .error e => .error e)

/-- The `stats` dict of lines 32-37. -/
structure Stats where
  total_files : Nat
  total_articles : Nat
  processed_files : List String
  failed_files : List String
deriving DecidableEq

/-- The empty statistics record the conversion starts from. -/
def initStats : Stats := ⟨0, 0, [], []⟩

/-- Outcome of reading and `json.load`-ing one buffer.  `badUtf8 msg`:
the bytes are not valid UTF-8, so reading raises `UnicodeDecodeError`
whose `str` is `msg`; `badJson`: the text is not valid JSON, so
`json.load` raises `json.JSONDecodeError`; `value v`: parsing succeeded
with value `v`. -/
inductive BufferContent where
  | badUtf8 (msg : String) : BufferContent
  | badJson : BufferContent
  | value (v : Json) : BufferContent

/-- A named input buffer (one `*.json` file of the scanned folder). -/
structure InputBuffer where
  name : String
  content : BufferContent

/-- Lines 46-47: reading and parsing one buffer, with the exception it
raises on failure.  `UnicodeDecodeError` is not a `JSONDecodeError`, so
it surfaces as a generic exception carrying its message. -/
def loadBuffer : BufferContent → Except PyExn Json
  | .badUtf8 msg => .error (.otherExn msg)
  | .badJson => .error .jsonDecodeError
  | .value v => .ok v

/-- The body of the per-file loop (lines 43-95) for one buffer:
transforms the statistics and the accumulated document.  The `except`
clauses of lines 92-95 map `JSONDecodeError` to an `(Invalid JSON)`
failure entry and any other exception `e` to a `(str(e))` entry; an
exception thrown inside the article loop leaves the fragments already
appended in the document but reaches stats only as a failure entry. -/
def processBuffer (now : String) (acc : Stats × String) (b : InputBuffer) : Stats × String :=
  let st := acc.1
  let html := acc.2
  match loadBuffer b.content with
  | .error .jsonDecodeError =>
      ({ st with failed_files := st.failed_files ++ [b.name ++ " (Invalid JSON)"] }, html)
  | .error (.otherExn msg) =>
      ({ st with failed_files := st.failed_files ++ [b.name ++ " (" ++ msg ++ ")"] }, html)
  | .ok (.arr arts) =>
      let pr := processArray now arts
      let html2 := html ++ strConcat pr.1
      match pr.2 with
      | .ok n =>
          ({ st with
              total_articles := st.total_articles + n,
              processed_files := st.processed_files ++ [b.name ++ " (" ++ toString n ++ " articles)"],
              total_files := st.total_files + 1 }, html2)
      | .error .jsonDecodeError =>
          ({ st with failed_files := st.failed_files ++ [b.name ++ " (Invalid JSON)"] }, html2)
      | .error (.otherExn msg) =>
          ({ st with failed_files := st.failed_files ++ [b.name ++ " (" ++ msg ++ ")"] }, html2)
  | .ok _ =>
      ({ st with failed_files := st.failed_files ++ [b.name ++ " (Invalid format)"] }, html)

/-- The per-file loop over all buffers, threading statistics and the
accumulated document. -/
def runBuffers (now : String) (acc : Stats × String) : List InputBuffer → Stats × String
  | [] => acc
  | b :: rest => runBuffers now (processBuffer now acc b) rest

/-- The fixed document header of lines 21-29. -/
def headerStr : String :=
  "<!DOCTYPE html>\n<html>\n<head>\n<meta charset=\"utf-8\">\n<title>Omnivore Bookmarks to Pocket</title>\n</head>\n<body>\n<h1>Bookmarks</h1>\n<dl>"

/-- The fixed document footer of lines 98-101. -/
def footerStr : String := "\n</dl>\n</body>\n</html>"

/-- `convert_omnivore_folder_to_pocket_html`, over the named buffers the
folder scan supplies, returning `(html_content, stats)`.  `now` is the
`strftime('%Y-%m-%d %H:%M:%S')` rendering of the wall-clock time at the
moment of processing, which the code substitutes whenever `savedAt` is
absent or fails to parse. -/
def convert (now : String) (bufs : List InputBuffer) : String × Stats :=
  let r := runBuffers now (initStats, headerStr) bufs
  (r.2 ++ footerStr, r.1)

/-- The fragments one buffer contributes to the document (also those a
later exception strands there). -/
def bufferFragments (now : String) (b : InputBuffer) : List String :=
  match b.content with
  | .value (.arr arts) => (processArray now arts).1
  | _ => []

/-- All fragments of the document, in buffer order. -/
def docFragments (now : String) (bufs : List InputBuffer) : List String :=
  (bufs.map (bufferFragments now)).flatten

/-- Whether an array element is a record carrying a `url` field (the
condition of line 59 on dict elements). -/
def articleHasUrlField : Json → Bool
  | .obj kvs => dictHasKey kvs "url"
  | _ => false

/-- Number of records of an array carrying a `url` field. -/
def urlYesCount (arts : List Json) : Nat :=
  (arts.filter articleHasUrlField).length

/-- Number of records of one buffer carrying a `url` field. -/
def bufUrlYes : InputBuffer → Nat
  | ⟨_, .value (.arr arts)⟩ => urlYesCount arts
  | _ => 0

/-- Sum over buffers of the records carrying a `url` field. -/
def urlYesTotal (bufs : List InputBuffer) : Nat :=
  (bufs.map bufUrlYes).sum

/-- Whether a record carries a `url` field whose value is a non-empty
string (the correspondence the specification asserts). -/
def articleHasNonEmptyUrl : Json → Bool
  | .obj kvs =>
      match kvs.lookup "url" with
      | some (.str s) => !(s.isEmpty)
      | some _ => true
      | none => false
  | _ => false

/-- Number of records of one buffer with a non-empty `url`. -/
def bufNonEmptyUrl : InputBuffer → Nat
  | ⟨_, .value (.arr arts)⟩ => (arts.filter articleHasNonEmptyUrl).length
  | _ => 0

/-- Sum over buffers of the records with a non-empty `url`. -/
def nonEmptyUrlTotal (bufs : List InputBuffer) : Nat :=
  (bufs.map bufNonEmptyUrl).sum

/-- Modelled from the spec: "given a `savedAt` string, replace a
trailing UTC designator `Z` with an explicit zero-offset suffix" — the
trailing-only replacement the specification describes, to be compared
with the code's replace-everywhere. -/
def specReplaceTrailingZ (s : String) : String :=
  if s.data.getLast? = some 'Z' then String.mk s.data.dropLast ++ "+00:00" else s

/-- Modelled from the spec: the whole timestamp sub-algorithm as the
specification words it — trailing-`Z` replacement, ISO-8601 parse,
wall-clock fallback. -/
def specTimeStrTrailing (s now : String) : String :=
  match parseIsoStr (specReplaceTrailingZ s) with
  | some dt => formatDT dt
  | none => now

/-- The timestamp sub-algorithm with the replacement amended to every
occurrence of `Z`, as the code performs it. -/
def specTimeStrAllZ (s now : String) : String :=
  match parseIsoStr (pyReplaceZ s) with
  | some dt => formatDT dt
  | none => now

/-- Whether a buffer parses to an array all of whose elements are
records (JSON objects). -/
def bufferIsObjArray : InputBuffer → Bool
  | ⟨_, .value (.arr arts)⟩ => arts.all (fun a => match a with | .obj _ => true | _ => false)
  | _ => false

/-- Whether a record (JSON object) carries a `savedAt` field. -/
def articleHasSavedAt : Json → Bool
  | .obj kvs => dictHasKey kvs "savedAt"
  | _ => false

/-- Whether every record of every parsed array buffer carries a
`savedAt` field. -/
def bufsAllSavedAt (bufs : List InputBuffer) : Bool :=
  bufs.all fun b =>
    match b.content with
    | .value (.arr arts) => arts.all articleHasSavedAt
    | _ => true

/-- Whether a JSON value is an array (`isinstance(omnivore_data, list)`,
line 50). -/
def isJsonArr : Json → Bool
  | .arr _ => true
  | _ => false

/-- Every buffer parses to an array and its article loop finishes
without raising: the domain on which per-record processing is exception
free. -/
def CleanBuffers (now : String) (bufs : List InputBuffer) : Prop :=
  ∀ b ∈ bufs, ∃ arts frags n,
    b.content = BufferContent.value (Json.arr arts) ∧ processArray now arts = (frags, Except.ok n)

/-- A record (when it is a dict) carries a `savedAt` string that parses
successfully after the `Z` replacement; such a record never consults
the wall clock. -/
def SavedAtParses (a : Json) : Prop :=
  ∀ kvs, a = Json.obj kvs →
    ∃ s dt, kvs.lookup "savedAt" = some (Json.str s) ∧ parseIsoStr (pyReplaceZ s) = some dt

/-- Every record of every parsed array buffer satisfies
`SavedAtParses`. -/
def AllSavedAtParse (bufs : List InputBuffer) : Prop :=
  ∀ b ∈ bufs, ∀ arts, b.content = BufferContent.value (Json.arr arts) → ∀ a ∈ arts, SavedAtParses a

/-- Counterexample input for C1: one valid array whose single record has
an empty-string `url`. -/
def bufsC1 : List InputBuffer :=
  [⟨"a.json", .value (.arr [Json.obj [("url", Json.str "")]])⟩]

/-- Witness input for C1: one record with a `url`, one without. -/
def artsC1w : List Json :=
  [Json.obj [("url", Json.str "https://w.test/1")], Json.obj [("note", Json.str "no url")]]

/-- The fragments the witness array yields. -/
def fragsC1w : List String := (processArray "2024-06-01 12:00:00" artsC1w).1

/-- Counterexample input for C2: a JSON array of objects whose record
carries a numeric `url`, on which `html.escape` raises. -/
def bufsC2 : List InputBuffer :=
  [⟨"b.json", .value (.arr [Json.obj [("url", Json.num 5)]])⟩]

/-- Witness input for C2: a clean buffer with one `url` record and one
record without `url`. -/
def bufsC2w : List InputBuffer :=
  [⟨"w.json", .value (.arr [Json.obj [("url", Json.str "https://w.test/1")],
    Json.obj [("note", Json.str "x")]])⟩]

/-- Counterexample input for C3: a buffer whose bytes are malformed
UTF-8; reading it raises `UnicodeDecodeError` with the canonical CPython
message. -/
def bufsC3 : List InputBuffer :=
  [⟨"export.json",
    .badUtf8 "\x27utf-8\x27 codec can\x27t decode byte 0xff in position 0: invalid start byte"⟩]

/-- Counterexample input for C4: a `savedAt` whose only `Z` is interior.
Replacing every `Z` yields `2023-05-01T10:00+00:00:59`, a string
`fromisoformat` accepts (offset `+00:00:59`), while the trailing-only
replacement the specification describes leaves the string unparsable. -/
def kvsC4 : List (String × Json) :=
  [("url", Json.str "u"), ("savedAt", Json.str "2023-05-01T10:00Z:59")]

/-- Witness input for C4: the specification's own example timestamp. -/
def kvsC4w : List (String × Json) := [("savedAt", Json.str "2023-05-01T10:00:00Z")]

/-- Witness input for C5: string fields with markup-special characters
in title, url and description, and two labels. -/
def kvsC5w : List (String × Json) :=
  [("url", Json.str "https://x.test/a?b=1&c=2"),
   ("title", Json.str "A&B <i>"),
   ("description", Json.str "<b>desc & markup</b>"),
   ("labels", Json.arr [Json.str "news", Json.str "tech"])]

/-- Witness input for C6: a record that converts, then a `None` element
on which `'url' not in article` raises `TypeError`. -/
def artsC6w : List Json := [Json.obj [("url", Json.str "https://w.test/1")], Json.null]

/-- The fragments the C6 witness array yields before the exception. -/
def fragsC6w : List String := (processArray "2024-06-01 12:00:00" artsC6w).1

/-- The buffer processed after the C6 witness failure. -/
def restC6w : List InputBuffer := [⟨"next.json", .value (.arr [])⟩]

/-- Counterexample input for C7: every record has a `savedAt` attribute,
but its value does not parse, so the wall clock is consulted. -/
def bufsC7 : List InputBuffer :=
  [⟨"c.json", .value (.arr [Json.obj [("url", Json.str "u"), ("savedAt", Json.str "last week")]])⟩]

/-- Witness input for C7: every record has a parsable `savedAt`. -/
def bufsC7w : List InputBuffer :=
  [⟨"w7.json", .value (.arr [Json.obj [("url", Json.str "u"),
    ("savedAt", Json.str "2023-05-01T10:00:00Z")]])⟩]

/-- Witness input for C10: one record converts before a numeric element
raises. -/
def artsC10w : List Json := [Json.obj [("url", Json.str "kept")], Json.num 7]

/-- The fragments the C10 witness array strands in the document. -/
def fragsC10w : List String := (processArray "2024-06-01 12:00:00" artsC10w).1

/-- A fragment is only produced for an element carrying a `url` field. -/
theorem processArticle_some_hasUrl (now : String) (a : Json) (f : String)
    (h : processArticle now a = Except.ok (some f)) : articleHasUrlField a = true := by
  cases a with
  | null => exact absurd h (by simp [processArticle])
  | bool b => exact absurd h (by simp [processArticle])
  | num n => exact absurd h (by simp [processArticle])
  | str s =>
      simp only [processArticle] at h
      split at h <;> simp_all
  | arr xs =>
      simp only [processArticle] at h
      split at h <;> simp_all
  | obj kvs =>
      simp only [processArticle] at h
      simp only [articleHasUrlField]
      split at h
      · assumption
      · simp at h

/-- A silent skip only happens for an element without a `url` field. -/
theorem processArticle_none_noUrl (now : String) (a : Json)
    (h : processArticle now a = Except.ok none) : articleHasUrlField a = false := by
  cases a with
  | null => rfl
  | bool b => rfl
  | num n => rfl
  | str s => rfl
  | arr xs => rfl
  | obj kvs =>
      simp only [processArticle] at h
      simp only [articleHasUrlField]
      split at h
      · rename_i hk
        exfalso
        rcases h1 : pyEscape (dictGetD kvs "title" (dictGetD kvs "url" Json.null)) with e | title <;>
          rw [h1] at h
        · simp at h
        · rcases h2 : pyEscape (dictGetD kvs "url" Json.null) with e | url <;> rw [h2] at h
          · simp at h
          · rcases h3 : articleTags kvs with e | tags <;> rw [h3] at h <;> simp at h
      · rename_i hk
        simpa using hk

/-- When the article loop finishes without raising, the number of
fragments equals the final count, which equals the number of records
carrying a `url` field. -/
theorem processArray_count (now : String) (arts : List Json) (frags : List String) (n : Nat)
    (h : processArray now arts = (frags, Except.ok n)) :
    frags.length = n ∧ n = urlYesCount arts := by
  induction arts generalizing frags n with
  | nil =>
      simp only [processArray, Prod.mk.injEq] at h
      obtain ⟨h1, h2⟩ := h
      simp only [Except.ok.injEq] at h2
      subst h1; subst h2
      simp [urlYesCount]
  | cons a rest ih =>
      simp only [processArray] at h
      rcases hpa : processArticle now a with e | r <;> rw [hpa] at h
      · simp at h
      · rcases r with _ | f
        · have hnu := processArticle_none_noUrl now a hpa
          obtain ⟨h1, h2⟩ := ih frags n h
          refine ⟨h1, ?_⟩
          simp [urlYesCount, List.filter, hnu] at h2 ⊢
          exact h2
        · rcases hrest : processArray now rest with ⟨fs, r2⟩
          rw [hrest] at h
          simp only [Prod.mk.injEq] at h
          obtain ⟨h1, h2⟩ := h
          rcases r2 with e2 | n2
          · simp at h2
          · simp only [Except.ok.injEq] at h2
            obtain ⟨hf1, hf2⟩ := ih fs n2 (by rw [hrest])
            have hu := processArticle_some_hasUrl now a f hpa
            subst h1
            simp only [List.length_cons, hf1]
            constructor
            · omega
            · simp [urlYesCount, List.filter, hu] at hf2 ⊢
              omega

/-- When the article loop finishes without raising, every element was
itself processed without raising. -/
theorem processArray_ok_article (now : String) (arts : List Json) (frags : List String) (n : Nat)
    (h : processArray now arts = (frags, Except.ok n)) (a : Json) (ha : a ∈ arts) :
    ∃ r, processArticle now a = Except.ok r := by
  induction arts generalizing frags n with
  | nil => simp at ha
  | cons b rest ih =>
      simp only [processArray] at h
      rcases hpb : processArticle now b with e | r <;> simp only [hpb] at h
      · simp at h
      · rcases List.mem_cons.mp ha with hab | harest
        · subst hab; exact ⟨r, hpb⟩
        · rcases r with _ | f
          · exact ih frags n h harest
          · rcases hrest : processArray now rest with ⟨fs, r2⟩
            rw [hrest] at h
            simp only [Prod.mk.injEq] at h
            rcases r2 with e2 | n2
            · simp at h
            · exact ih fs n2 hrest harest

/-- Inside a successfully processed array, an element without a `url`
field was skipped silently. -/
theorem processArray_skip_noUrl (now : String) (arts : List Json) (frags : List String) (n : Nat)
    (h : processArray now arts = (frags, Except.ok n)) (a : Json) (ha : a ∈ arts)
    (hnu : articleHasUrlField a = false) : processArticle now a = Except.ok none := by
  obtain ⟨r, hr⟩ := processArray_ok_article now arts frags n h a ha
  rcases r with _ | f
  · exact hr
  · exact absurd (processArticle_some_hasUrl now a f hr) (by rw [hnu]; simp)

/-- `strConcat` distributes over list append. -/
theorem strConcat_append (l1 l2 : List String) :
    strConcat (l1 ++ l2) = strConcat l1 ++ strConcat l2 := by
  induction l1 with
  | nil => simp [strConcat, String.empty_append]
  | cons s rest ih => simp [strConcat, ih, String.append_assoc]

/-- `docFragments` unfolds buffer by buffer. -/
theorem docFragments_cons (now : String) (b : InputBuffer) (rest : List InputBuffer) :
    docFragments now (b :: rest) = bufferFragments now b ++ docFragments now rest := by
  simp [docFragments]

/-- One buffer extends the document by exactly its fragments. -/
theorem processBuffer_snd (now : String) (st : Stats) (html : String) (b : InputBuffer) :
    (processBuffer now (st, html) b).2 = html ++ strConcat (bufferFragments now b) := by
  rcases b with ⟨name, content⟩
  rcases content with msg | _ | v
  · simp [processBuffer, loadBuffer, bufferFragments, strConcat, String.append_empty]
  · simp [processBuffer, loadBuffer, bufferFragments, strConcat, String.append_empty]
  · rcases v with _ | bb | nn | ss | arts | kvs <;>
      simp [processBuffer, loadBuffer, bufferFragments, strConcat, String.append_empty]
    rcases (processArray now arts).2 with e | n
    · rcases e with _ | m <;> simp
    · simp

/-- The final document is the starting accumulator followed by every
buffer's fragments in order. -/
theorem runBuffers_snd (now : String) (bufs : List InputBuffer) (st : Stats) (html : String) :
    (runBuffers now (st, html) bufs).2 = html ++ strConcat (docFragments now bufs) := by
  induction bufs generalizing st html with
  | nil => simp [runBuffers, docFragments, strConcat, String.append_empty]
  | cons b rest ih =>
      simp only [runBuffers]
      rcases hpb : processBuffer now (st, html) b with ⟨st2, html2⟩
      have h2 := processBuffer_snd now st html b
      rw [hpb] at h2
      simp only at h2
      rw [ih st2 html2, h2, docFragments_cons, strConcat_append, String.append_assoc]

/-- On clean buffers, the number of fragments is the number of records
carrying `url`. -/
theorem docFragments_length_clean (now : String) (bufs : List InputBuffer)
    (h : CleanBuffers now bufs) : (docFragments now bufs).length = urlYesTotal bufs := by
  induction bufs with
  | nil => simp [docFragments, urlYesTotal]
  | cons b rest ih =>
      obtain ⟨arts, frags, n, hc, hp⟩ := h b (List.mem_cons_self b rest)
      have hrest : CleanBuffers now rest := fun b2 hb2 => h b2 (List.mem_cons_of_mem b hb2)
      obtain ⟨hlen, hcnt⟩ := processArray_count now arts frags n hp
      rw [docFragments_cons, List.length_append, ih hrest]
      simp only [urlYesTotal, List.map_cons, List.sum_cons]
      have hb : (bufferFragments now b).length = bufUrlYes b := by
        rcases b with ⟨name, content⟩
        simp only at hc
        subst hc
        simp only [bufferFragments, bufUrlYes, hp, hlen]
        omega
      omega

/-- On clean buffers, the final `total_articles` adds the number of
`url` records of every buffer. -/
theorem runBuffers_total_articles (now : String) (bufs : List InputBuffer) (st : Stats)
    (html : String) (h : CleanBuffers now bufs) :
    (runBuffers now (st, html) bufs).1.total_articles = st.total_articles + urlYesTotal bufs := by
  induction bufs generalizing st html with
  | nil => simp [runBuffers, urlYesTotal]
  | cons b rest ih =>
      obtain ⟨arts, frags, n, hc, hp⟩ := h b (List.mem_cons_self b rest)
      have hrest : CleanBuffers now rest := fun b2 hb2 => h b2 (List.mem_cons_of_mem b hb2)
      obtain ⟨hlen, hcnt⟩ := processArray_count now arts frags n hp
      rcases b with ⟨name, content⟩
      simp only at hc
      subst hc
      simp only [runBuffers, processBuffer, loadBuffer, hp]
      rw [ih _ _ hrest]
      simp only [urlYesTotal, List.map_cons, List.sum_cons, bufUrlYes]
      simp only [urlYesTotal] at *
      omega

/-- A parsable `savedAt` fixes the timestamp independently of the wall
clock. -/
theorem articleTimeStr_parses (now : String) (kvs : List (String × Json)) (s : String) (dt : DT)
    (hl : kvs.lookup "savedAt" = some (Json.str s)) (hp : parseIsoStr (pyReplaceZ s) = some dt) :
    articleTimeStr now kvs = formatDT dt := by
  simp [articleTimeStr, hl, hp]

/-- An article with a parsable `savedAt` is processed identically under
any two wall-clock readings. -/
theorem processArticle_now_irrel (now1 now2 : String) (a : Json) (h : SavedAtParses a) :
    processArticle now1 a = processArticle now2 a := by
  cases a with
  | null => rfl
  | bool b => rfl
  | num n => rfl
  | str s => rfl
  | arr xs => rfl
  | obj kvs =>
      obtain ⟨s, dt, hl, hp⟩ := h kvs rfl
      have ht : articleTimeStr now1 kvs = articleTimeStr now2 kvs := by
        rw [articleTimeStr_parses now1 kvs s dt hl hp, articleTimeStr_parses now2 kvs s dt hl hp]
      simp only [processArticle, ht]

/-- An array of such articles is processed identically under any two
wall-clock readings. -/
theorem processArray_now_irrel (now1 now2 : String) (arts : List Json)
    (h : ∀ a ∈ arts, SavedAtParses a) :
    processArray now1 arts = processArray now2 arts := by
  induction arts with
  | nil => rfl
  | cons a rest ih =>
      have ha := processArticle_now_irrel now1 now2 a (h a (List.mem_cons_self a rest))
      have hrest := ih (fun a2 h2 => h a2 (List.mem_cons_of_mem a h2))
      simp only [processArray, ha, hrest]

/-- The whole run is identical under any two wall-clock readings when
every record's `savedAt` parses. -/
theorem runBuffers_now_irrel (now1 now2 : String) (bufs : List InputBuffer)
    (h : AllSavedAtParse bufs) (acc : Stats × String) :
    runBuffers now1 acc bufs = runBuffers now2 acc bufs := by
  induction bufs generalizing acc with
  | nil => rfl
  | cons b rest ih =>
      have hrest : AllSavedAtParse rest := fun b2 h2 => h b2 (List.mem_cons_of_mem b h2)
      have hb : processBuffer now1 acc b = processBuffer now2 acc b := by
        rcases b with ⟨name, content⟩
        rcases content with msg | _ | v
        · rfl
        · rfl
        · rcases v with _ | bb | nn | ss | arts | kvs
          · rfl
          · rfl
          · rfl
          · rfl
          · have harr := processArray_now_irrel now1 now2 arts
              (h ⟨name, BufferContent.value (Json.arr arts)⟩ (List.mem_cons_self _ _) arts rfl)
            simp only [processBuffer, loadBuffer, harr]
          · rfl
      rw [runBuffers, runBuffers, hb, ih hrest]

/-- `','.join` succeeds on a list of strings and returns their
comma-separated concatenation. -/
theorem checkStrList_map (ls : List String) (i : Nat) :
    checkStrList i (ls.map Json.str) = Except.ok ls := by
  induction ls generalizing i with
  | nil => rfl
  | cons s rest ih => simp [checkStrList, ih (i + 1)]

/-- A produced fragment always embeds the record's normalized timestamp
in the `time_added` slot. -/
theorem processArticle_frag_shape (now : String) (kvs : List (String × Json)) (frag : String)
    (h : processArticle now (Json.obj kvs) = Except.ok (some frag)) :
    ∃ url tags title desc, frag = mkFragment url (articleTimeStr now kvs) tags title desc := by
  simp only [processArticle] at h
  split at h
  · rcases h1 : pyEscape (dictGetD kvs "title" (dictGetD kvs "url" Json.null)) with e | title <;>
      rw [h1] at h
    · simp at h
    · rcases h2 : pyEscape (dictGetD kvs "url" Json.null) with e | url <;> rw [h2] at h
      · simp at h
      · rcases h3 : articleTags kvs with e | tags <;> rw [h3] at h
        · simp at h
        · simp only [Except.ok.injEq, Option.some.injEq] at h
          exact ⟨url, tags, title, pyStr (dictGetD kvs "description" (Json.str "")), h.symm⟩
  · simp at h

set_option maxRecDepth 4000 in
/-- C1 counterexample: the claim requires every output entry to come
from a record with a NON-EMPTY `url`, but the code only tests presence
of the key (line 59).  On one record whose `url` is the empty string the
document gains one `<dt>` entry and the article counter one article,
while no record has a non-empty `url`. -/
theorem C1_counterexample :
    countSubstr "<dt>" (convert "2024-06-01 12:00:00" bufsC1).1 = 1 ∧
    nonEmptyUrlTotal bufsC1 = 0 ∧
    (convert "2024-06-01 12:00:00" bufsC1).2.total_articles = 1 := by
  decide

/-- C1 (amended): every BookmarkEntry corresponds to exactly one
ArticleRecord that had a `url` attribute (possibly with an empty
value); a record lacking a `url` attribute is silently skipped — it
produces no fragment, does not increment the count and does not fail
the file.  Stated on a successfully processed array: the fragments are
in bijection with the `url`-carrying records, and every `url`-less
element maps to a silent skip. -/
theorem C1_url_correspondence (now : String) (arts : List Json) (frags : List String) (n : Nat)
    (h : processArray now arts = (frags, Except.ok n)) :
    frags.length = urlYesCount arts ∧
    ∀ a ∈ arts, articleHasUrlField a = false → processArticle now a = Except.ok none :=
  ⟨(processArray_count now arts frags n h).1.trans (processArray_count now arts frags n h).2,
   fun a ha hnu => processArray_skip_noUrl now arts frags n h a ha hnu⟩

/-- C1 witness: on a two-record array (one with `url`, one without) the
loop succeeds, one fragment per `url` record is emitted and the
`url`-less record is skipped. -/
theorem C1_witness :
    (fragsC1w.length = urlYesCount artsC1w ∧
      ∀ a ∈ artsC1w, articleHasUrlField a = false →
        processArticle "2024-06-01 12:00:00" a = Except.ok none) ∧
    fragsC1w.length = 1 :=
  ⟨C1_url_correspondence "2024-06-01 12:00:00" artsC1w fragsC1w 1 rfl, rfl⟩

/-- C2 counterexample: a buffer that decodes and parses as a JSON array
of objects — the claim's "valid input array" — whose record carries a
numeric `url`: `html.escape(5)` raises, the file fails, and the number
of emitted fragments (0) differs from the number of records containing
a `url` field (1). -/
theorem C2_counterexample :
    bufsC2.all bufferIsObjArray = true ∧
    (docFragments "2024-06-01 12:00:00" bufsC2).length = 0 ∧
    urlYesTotal bufsC2 = 1 ∧
    (convert "2024-06-01 12:00:00" bufsC2).2.total_articles = 0 := by
  decide

/-- C2 (amended): for every input whose buffers all parse as JSON
arrays and whose per-record processing raises no exception, the number
of BookmarkEntry fragments in the returned document equals the sum over
files of the records containing a `url` field, and that sum equals the
returned total-articles statistic. -/
theorem C2_fragment_count (now : String) (bufs : List InputBuffer) (h : CleanBuffers now bufs) :
    (convert now bufs).1 = headerStr ++ strConcat (docFragments now bufs) ++ footerStr ∧
    (docFragments now bufs).length = urlYesTotal bufs ∧
    (convert now bufs).2.total_articles = urlYesTotal bufs := by
  refine ⟨?_, docFragments_length_clean now bufs h, ?_⟩
  · simp only [convert]
    rw [runBuffers_snd]
  · simp only [convert]
    rw [runBuffers_total_articles now bufs initStats headerStr h]
    simp [initStats]

/-- C2 witness: a clean one-buffer input with one `url` record and one
`url`-less record has exactly one fragment, equal to its article
statistic. -/
theorem C2_witness :
    ((convert "2024-06-01 12:00:00" bufsC2w).1
        = headerStr ++ strConcat (docFragments "2024-06-01 12:00:00" bufsC2w) ++ footerStr ∧
      (docFragments "2024-06-01 12:00:00" bufsC2w).length = urlYesTotal bufsC2w ∧
      (convert "2024-06-01 12:00:00" bufsC2w).2.total_articles = urlYesTotal bufsC2w) ∧
    urlYesTotal bufsC2w = 1 :=
  ⟨C2_fragment_count "2024-06-01 12:00:00" bufsC2w (by
      intro b hb
      simp only [bufsC2w, List.mem_singleton] at hb
      subst hb
      exact ⟨_, _, _, rfl, rfl⟩), rfl⟩

/-- C3 counterexample: a malformed-UTF-8 buffer raises
`UnicodeDecodeError`, which is not a `json.JSONDecodeError`, so the
generic handler of line 94 records `"<name> (<str(e)>)"` — not the
`"<name> (Invalid JSON)"` entry the claim asserts. -/
theorem C3_counterexample :
    (convert "2024-06-01 12:00:00" bufsC3).2.failed_files
        = ["export.json (\x27utf-8\x27 codec can\x27t decode byte 0xff in position 0: invalid start byte)"] ∧
    ¬ "export.json (Invalid JSON)" ∈ (convert "2024-06-01 12:00:00" bufsC3).2.failed_files := by
  decide

/-- C3 (amended): a buffer whose text is invalid JSON syntax records
the failure entry `"<name> (Invalid JSON)"`; a buffer whose bytes are
malformed UTF-8 records the generic failure entry
`"<name> (<error message>)"` instead.  Either way no output fragment is
emitted from the buffer and processing continues with the next
buffer. -/
theorem C3_failure_entries (now : String) (st : Stats) (html name : String)
    (rest : List InputBuffer) :
    (∀ msg, runBuffers now (st, html) (⟨name, BufferContent.badUtf8 msg⟩ :: rest)
        = runBuffers now
            ({ st with failed_files := st.failed_files ++ [name ++ " (" ++ msg ++ ")"] }, html)
            rest)
    ∧ runBuffers now (st, html) (⟨name, BufferContent.badJson⟩ :: rest)
        = runBuffers now
            ({ st with failed_files := st.failed_files ++ [name ++ " (Invalid JSON)"] }, html)
            rest :=
  ⟨fun _ => rfl, rfl⟩

/-- C4 counterexample: `savedAt = "2023-05-01T10:00Z:59"` has only an
interior `Z`.  The code replaces every `Z` (line 74), producing
`2023-05-01T10:00+00:00:59`, which parses (offset `+00:00:59`) and
yields the fixed timestamp `2023-05-01 10:00:00`; the claim's
trailing-only replacement leaves the string unparsable and demands the
wall-clock time instead. -/
theorem C4_counterexample :
    articleTimeStr "2024-06-01 12:00:00" kvsC4 = "2023-05-01 10:00:00" ∧
    specTimeStrTrailing "2023-05-01T10:00Z:59" "2024-06-01 12:00:00" = "2024-06-01 12:00:00" ∧
    ¬ articleTimeStr "2024-06-01 12:00:00" kvsC4
        = specTimeStrTrailing "2023-05-01T10:00Z:59" "2024-06-01 12:00:00" := by
  decide

/-- C4 (amended): the emitted `time_added` value is produced by
replacing EVERY occurrence of `Z` (not only a trailing one) with the
zero-offset suffix and parsing the result as ISO-8601, formatted
`YYYY-MM-DD HH:MM:SS`; when `savedAt` is absent or the normalized
string fails to parse, the wall-clock time at the moment of processing
is substituted, and every emitted fragment embeds exactly this value in
its `time_added` slot. -/
theorem C4_time_normalization (now : String) (kvs : List (String × Json)) :
    (∀ s, kvs.lookup "savedAt" = some (Json.str s) →
        articleTimeStr now kvs = specTimeStrAllZ s now)
    ∧ (kvs.lookup "savedAt" = none → articleTimeStr now kvs = now)
    ∧ ∀ frag, processArticle now (Json.obj kvs) = Except.ok (some frag) →
        ∃ url tags title desc, frag = mkFragment url (articleTimeStr now kvs) tags title desc := by
  refine ⟨?_, ?_, fun frag h => processArticle_frag_shape now kvs frag h⟩
  · intro s hs
    simp [articleTimeStr, hs, specTimeStrAllZ]
  · intro hn
    simp [articleTimeStr, hn]

/-- C4 witness: the specification's example `2023-05-01T10:00:00Z`
normalizes to the fixed timestamp `2023-05-01 10:00:00`. -/
theorem C4_witness :
    articleTimeStr "2024-06-01 12:00:00" kvsC4w
        = specTimeStrAllZ "2023-05-01T10:00:00Z" "2024-06-01 12:00:00" ∧
    specTimeStrAllZ "2023-05-01T10:00:00Z" "2024-06-01 12:00:00" = "2023-05-01 10:00:00" :=
  ⟨(C4_time_normalization "2024-06-01 12:00:00" kvsC4w).1 "2023-05-01T10:00:00Z" rfl, rfl⟩

/-- C5: HTML escaping is applied to the title, the url and the
comma-joined labels string (labels joined first, then the joined string
escaped as a whole), while the description is embedded exactly as it
appears in the record, unescaped. -/
theorem C5_escaping (now : String) (kvs : List (String × Json)) (u t ds : String)
    (ls : List String)
    (hu : kvs.lookup "url" = some (Json.str u))
    (ht : kvs.lookup "title" = some (Json.str t))
    (hd : kvs.lookup "description" = some (Json.str ds))
    (hl : kvs.lookup "labels" = some (Json.arr (ls.map Json.str)))
    (hne : ls ≠ []) :
    processArticle now (Json.obj kvs) =
      Except.ok (some (mkFragment (htmlEscape u) (articleTimeStr now kvs)
        (htmlEscape (String.intercalate "," ls)) (htmlEscape t) ds)) := by
  have hjoin : pyJoinComma (Json.arr (ls.map Json.str)) = Except.ok (String.intercalate "," ls) := by
    simp [pyJoinComma, checkStrList_map]
  have htags : articleTags kvs = Except.ok (htmlEscape (String.intercalate "," ls)) := by
    rcases ls with _ | ⟨l0, lrest⟩
    · exact absurd rfl hne
    · simp only [List.map_cons] at hjoin
      simp [articleTags, dictHasKey, dictGetD, hl, pyTruthy, hjoin]
  simp [processArticle, dictHasKey, dictGetD, hu, ht, hd, htags, pyEscape, pyStr]

/-- C5 witness: on a record with markup-special characters everywhere,
the title, url and joined tag string come out escaped while the
description passes through verbatim. -/
theorem C5_witness :
    processArticle "2024-06-01 12:00:00" (Json.obj kvsC5w) =
      Except.ok (some (mkFragment (htmlEscape "https://x.test/a?b=1&c=2")
        (articleTimeStr "2024-06-01 12:00:00" kvsC5w)
        (htmlEscape (String.intercalate "," ["news", "tech"]))
        (htmlEscape "A&B <i>") "<b>desc & markup</b>")) ∧
    htmlEscape "A&B <i>" = "A&amp;B &lt;i&gt;" ∧
    String.intercalate "," ["news", "tech"] = "news,tech" :=
  ⟨C5_escaping "2024-06-01 12:00:00" kvsC5w "https://x.test/a?b=1&c=2" "A&B <i>"
      "<b>desc & markup</b>" ["news", "tech"] rfl rfl rfl rfl (List.cons_ne_nil _ _),
   rfl, rfl⟩

/-- C6: an exception raised while processing one buffer (other than the
Invalid JSON / Invalid format cases) is caught, stringified and
recorded as the failure entry `"<name> (<error message>)"`, and the run
continues with the remaining buffers — one buffer's failure never
aborts the conversion. -/
theorem C6_exception_contained (now : String) (st : Stats) (html name : String)
    (arts : List Json) (rest : List InputBuffer) (msg : String) (frags : List String)
    (h : processArray now arts = (frags, Except.error (PyExn.otherExn msg))) :
    runBuffers now (st, html) (⟨name, BufferContent.value (Json.arr arts)⟩ :: rest)
      = runBuffers now
          ({ st with failed_files := st.failed_files ++ [name ++ " (" ++ msg ++ ")"] },
           html ++ strConcat frags) rest := by
  simp only [runBuffers, processBuffer, loadBuffer, h]

/-- C6 witness: a buffer whose second element is `None` raises
`TypeError: argument of type 'NoneType' is not iterable`; the run
records the stringified message and continues with the next buffer. -/
theorem C6_witness :
    runBuffers "2024-06-01 12:00:00" (initStats, headerStr)
        (⟨"bad.json", BufferContent.value (Json.arr artsC6w)⟩ :: restC6w)
      = runBuffers "2024-06-01 12:00:00"
          ({ initStats with failed_files := initStats.failed_files
              ++ ["bad.json (argument of type \x27NoneType\x27 is not iterable)"] },
           headerStr ++ strConcat fragsC6w) restC6w :=
  C6_exception_contained "2024-06-01 12:00:00" initStats headerStr "bad.json" artsC6w restC6w
    "argument of type \x27NoneType\x27 is not iterable" fragsC6w rfl

set_option maxRecDepth 8000 in
/-- C7 counterexample: every record of the input carries a `savedAt`
attribute, yet its value does not parse, so the wall clock is consulted
and two runs at different wall-clock times return different
documents — the claimed determinism fails. -/
theorem C7_counterexample :
    bufsAllSavedAt bufsC7 = true ∧
    ¬ convert "2024-01-01 00:00:00" bufsC7 = convert "2024-01-02 00:00:00" bufsC7 := by
  decide

/-- C7 (amended): two runs of convert on the same buffers return
identical output documents and identical statistics whenever every
record's `savedAt` is present AND parses successfully after the `Z`
replacement; timestamps can vary with wall-clock time for records
lacking `savedAt` or whose `savedAt` fails to parse. -/
theorem C7_determinism (now1 now2 : String) (bufs : List InputBuffer)
    (h : AllSavedAtParse bufs) :
    convert now1 bufs = convert now2 bufs := by
  simp only [convert, runBuffers_now_irrel now1 now2 bufs h]

/-- C7 witness: with a parsable `savedAt` on every record, two runs a
day apart coincide. -/
theorem C7_witness :
    convert "2024-01-01 00:00:00" bufsC7w = convert "2024-01-02 00:00:00" bufsC7w :=
  C7_determinism "2024-01-01 00:00:00" "2024-01-02 00:00:00" bufsC7w (by
    intro b hb arts harts a ha kvs hk
    simp only [bufsC7w, List.mem_singleton] at hb
    subst hb
    simp only [BufferContent.value.injEq, Json.arr.injEq] at harts
    subst harts
    simp only [List.mem_singleton] at ha
    subst ha
    simp only [Json.obj.injEq] at hk
    subst hk
    exact ⟨"2023-05-01T10:00:00Z", ⟨2023, 5, 1, 10, 0, 0⟩, rfl, rfl⟩)

/-- C8: a buffer that parses as an array and whose article loop raises
no exception gets the success entry `"<name> (<count> articles)"` (even
when the count is 0), increments the processed-file counter by one and
adds its local article count to the running total. -/
theorem C8_success_entry (now : String) (st : Stats) (html name : String) (arts : List Json)
    (rest : List InputBuffer) (frags : List String) (n : Nat)
    (h : processArray now arts = (frags, Except.ok n)) :
    runBuffers now (st, html) (⟨name, BufferContent.value (Json.arr arts)⟩ :: rest)
      = runBuffers now
          ({ st with
              total_files := st.total_files + 1,
              total_articles := st.total_articles + n,
              processed_files := st.processed_files ++ [name ++ " (" ++ toString n ++ " articles)"] },
           html ++ strConcat frags) rest := by
  simp only [runBuffers, processBuffer, loadBuffer, h]

/-- C8 witness: an empty array still produces the success entry
`"empty.json (0 articles)"` and increments the processed-file
counter. -/
theorem C8_witness :
    (runBuffers "2024-06-01 12:00:00" (initStats, headerStr)
        (⟨"empty.json", BufferContent.value (Json.arr [])⟩ :: [])
      = runBuffers "2024-06-01 12:00:00"
          ({ initStats with
              total_files := initStats.total_files + 1,
              total_articles := initStats.total_articles + 0,
              processed_files := initStats.processed_files
                ++ ["empty.json (" ++ toString 0 ++ " articles)"] },
           headerStr ++ strConcat []) []) ∧
    "empty.json (" ++ toString 0 ++ " articles)" = "empty.json (0 articles)" :=
  ⟨C8_success_entry "2024-06-01 12:00:00" initStats headerStr "empty.json" [] [] [] 0 rfl, rfl⟩

/-- C9: a buffer parsing to valid JSON whose top-level value is not an
array records the failure entry `"<name> (Invalid format)"`, emits no
output from the buffer and moves on to the next buffer. -/
theorem C9_invalid_format (now : String) (st : Stats) (html name : String) (v : Json)
    (rest : List InputBuffer) (h : isJsonArr v = false) :
    runBuffers now (st, html) (⟨name, BufferContent.value v⟩ :: rest)
      = runBuffers now
          ({ st with failed_files := st.failed_files ++ [name ++ " (Invalid format)"] }, html)
          rest := by
  cases v with
  | arr xs => exact absurd h (by simp [isJsonArr])
  | null => rfl
  | bool b => rfl
  | num n => rfl
  | str s => rfl
  | obj kvs => rfl

/-- C9 witness: a buffer holding a JSON object (not an array) is
recorded as `"obj.json (Invalid format)"` and the document is
untouched. -/
theorem C9_witness :
    runBuffers "2024-06-01 12:00:00" (initStats, headerStr)
        (⟨"obj.json", BufferContent.value (Json.obj [])⟩ :: [])
      = runBuffers "2024-06-01 12:00:00"
          ({ initStats with failed_files := initStats.failed_files ++ ["obj.json (Invalid format)"] },
           headerStr) [] :=
  C9_invalid_format "2024-06-01 12:00:00" initStats headerStr "obj.json" (Json.obj []) [] rfl

/-- C10: per-buffer failure is not atomic with respect to the output
document — when an exception interrupts the article loop, the fragments
already appended from that buffer remain in the returned document,
while the buffer contributes nothing to the processed-file and
total-article counters and is recorded only as a failure. -/
theorem C10_partial_output (now name : String) (arts : List Json) (msg : String)
    (frags : List String)
    (h : processArray now arts = (frags, Except.error (PyExn.otherExn msg))) :
    convert now [⟨name, BufferContent.value (Json.arr arts)⟩]
      = (headerStr ++ strConcat frags ++ footerStr,
         ⟨0, 0, [], [name ++ " (" ++ msg ++ ")"]⟩) := by
  simp only [convert, runBuffers, processBuffer, loadBuffer, h, initStats]
  simp

/-- C10 witness: one record converts, then a numeric element raises;
the lone fragment stays in the document while the stats show zero
processed files and zero articles. -/
theorem C10_witness :
    convert "2024-06-01 12:00:00" [⟨"c10.json", BufferContent.value (Json.arr artsC10w)⟩]
      = (headerStr ++ strConcat fragsC10w ++ footerStr,
         ⟨0, 0, [], ["c10.json (argument of type \x27int\x27 is not iterable)"]⟩) ∧
    fragsC10w.length = 1 :=
  ⟨C10_partial_output "2024-06-01 12:00:00" "c10.json" artsC10w
      "argument of type \x27int\x27 is not iterable" fragsC10w rfl, rfl⟩
